import Mathlib

/-!
Verification of the myphysicslab ODE-integration spec against the source of
`DiffEqSolverSubject` (lab/model/DiffEqSolverSubject.js) and
`MagnetWheelSim` (sims/misc/MagnetWheelSim.js).

The solver classes (`EulersMethod`, `ModifiedEuler`, `RungeKutta`,
`AdaptiveStepSolver`), `VarsList`, `EnergyInfo` and `MagnetWheel` are
collaborators whose source is not part of this extract; they are modelled
from the spec where a definition is needed, as marked in doc comments.
Numbers are modelled as rationals.
-/

/-- The closed set of solver variants that `DiffEqSolverSubject`'s constructor
can place in its `solvers_` list: the three fixed-step solvers plus the
adaptive wrapper around a fixed-step solver. -/
inductive DiffEqSolver where
  | eulersMethod : DiffEqSolver
  | modifiedEuler : DiffEqSolver
  | rungeKutta : DiffEqSolver
  | adaptiveStepSolver : DiffEqSolver → DiffEqSolver
deriving DecidableEq

namespace DiffEqSolver

/-- Modelled from the spec: each solver variant "is uniquely identified by a
language-independent name (for selection)" (the solver classes are not in
this extract). The adaptive wrapper's name incorporates the wrapped
solver's name so the two adaptive registry entries are distinct. -/
def getName : DiffEqSolver → String
  | eulersMethod => "EULERS_METHOD"
  | modifiedEuler => "MODIFIED_EULER"
  | rungeKutta => "RUNGE_KUTTA"
  | adaptiveStepSolver s => "ADAPTIVE_" ++ getName s

/-- Modelled from the spec: `nameEquals` tests whether the given string is
this solver's stable language-independent name (the registry is "keyed by a
stable language-independent name"). -/
def nameEquals (s : DiffEqSolver) (value : String) : Bool :=
  getName s == value

theorem nameEquals_true_iff (s : DiffEqSolver) (value : String) :
    nameEquals s value = true ↔ getName s = value := by
  simp [nameEquals]

end DiffEqSolver

/-- Language-independent name of the `DIFF_EQ_SOLVER` parameter created by
`DiffEqSolverSubject` (`DiffEqSolverSubject.en.DIFF_EQ_SOLVER`). -/
def DIFF_EQ_SOLVER_PARAM : String := "Diff Eq Solver"

/-- The `solvers_` list built by the `DiffEqSolverSubject` constructor
(part_001 lines 90-101): push `EulersMethod`, `ModifiedEuler`, `RungeKutta`,
and, when `energySystem_ != null`, an `AdaptiveStepSolver` wrapping a
`ModifiedEuler` followed by one wrapping a `RungeKutta`. -/
def mkSolvers (energySystem : Option Unit) : List DiffEqSolver :=
  [DiffEqSolver.eulersMethod, DiffEqSolver.modifiedEuler, DiffEqSolver.rungeKutta] ++
    (if energySystem.isSome then
      [DiffEqSolver.adaptiveStepSolver DiffEqSolver.modifiedEuler,
       DiffEqSolver.adaptiveStepSolver DiffEqSolver.rungeKutta]
    else [])

/-- State of a `DiffEqSolverSubject` together with its advance-strategy
collaborator: the registry `solvers_` and the solver currently installed in
`advanceStrategy_`. -/
structure DiffEqSolverSubjectState where
  solvers : List DiffEqSolver
  activeSolver : DiffEqSolver
deriving DecidableEq

/-- How a call to `setDiffEqSolver` terminates: normal return, or a thrown
`Error` with the given message. -/
inductive SetSolverOutcome where
  | ok : SetSolverOutcome
  | threw : String → SetSolverOutcome
deriving DecidableEq

namespace DiffEqSolverSubject

/-- `DiffEqSolverSubject.prototype.getDiffEqSolver` (part_001 lines 136-138):
returns the language-independent name of the advance strategy's current
solver. -/
def getDiffEqSolver (st : DiffEqSolverSubjectState) : String :=
  DiffEqSolver.getName st.activeSolver

/-- `DiffEqSolverSubject.prototype.setDiffEqSolver` (part_001 lines 143-155).
If the current solver's name already equals `value`, nothing happens.
Otherwise the registry is searched; on a hit the advance strategy's solver
is swapped and the `DIFF_EQ_SOLVER` parameter is broadcast once; on a miss
the call throws `Error('unknown solver: ' + value)`. Returns the outcome,
the new state, and the list of parameter broadcasts emitted. -/
def setDiffEqSolver (st : DiffEqSolverSubjectState) (value : String) :
    SetSolverOutcome × DiffEqSolverSubjectState × List String :=
  if DiffEqSolver.nameEquals st.activeSolver value then
    (SetSolverOutcome.ok, st, [])
  else
    match st.solvers.find? (fun s => DiffEqSolver.nameEquals s value) with
    | some solver =>
        (SetSolverOutcome.ok, { st with activeSolver := solver }, [DIFF_EQ_SOLVER_PARAM])
    | none =>
        (SetSolverOutcome.threw ("unknown solver: " ++ value), st, [])

end DiffEqSolverSubject

/-- A concrete subject for counterexamples: constructed with an energy system
(so all five solvers are registered) and with the Runge-Kutta solver
currently active in the advance strategy. -/
def sampleSubject : DiffEqSolverSubjectState :=
  { solvers := mkSolvers (some ()), activeSolver := DiffEqSolver.rungeKutta }

/-- Modelled from the spec: the StateVector / `VarsList` collaborator (its
source is not in this extract). An ordered sequence of scalar slot values,
where "each slot carries a change-sequence counter incremented whenever its
value changes discontinuously"; the counters are represented as a function
from slot index to counter value. -/
structure VarsList where
  values : List ℚ
  seq : ℕ → ℕ

namespace VarsList

/-- Modelled from the spec: `write(values, continuous)` "replaces all slot
values; if `continuous` is false, increments the change-sequence counter for
every slot whose value differs from the prior value"; counters are
unaffected by continuous updates. -/
def setValues (va : VarsList) (vals : List ℚ) (continuous : Bool) : VarsList :=
  { values := vals,
    seq := if continuous then va.seq
           else fun i =>
             if vals.getD i 0 ≠ va.values.getD i 0 then va.seq i + 1 else va.seq i }

/-- Modelled from the spec: `incrSequence(indices)` bumps the change-sequence
counter of each listed slot ("incremented whenever its value changes
discontinuously"), leaving every other slot's counter unchanged. -/
def incrSequence (va : VarsList) (idxs : List ℕ) : VarsList :=
  { va with seq := fun i => if i ∈ idxs then va.seq i + 1 else va.seq i }

end VarsList

/-- Modelled from the spec: the `MagnetWheel` physical object (its source is
not in this extract; physical-model geometry is an external collaborator).
Carries mass, radius, current angle and angular velocity, the body-frame
magnet positions, and two abstract capabilities: the body-to-world
coordinate transform as a function of the current angle, and the kinetic
energy as a function of mass, radius and angular velocity. -/
structure MagnetWheel where
  mass : ℚ
  radius : ℚ
  angle : ℚ
  angularVelocity : ℚ
  magnets : List (ℚ × ℚ)
  bodyToWorldF : ℚ → ℚ × ℚ → ℚ × ℚ
  kineticEnergyF : ℚ → ℚ → ℚ → ℚ

namespace MagnetWheel

/-- `wheel.bodyToWorld(p)`: world position of body-frame point `p` at the
wheel's current angle. -/
def bodyToWorld (w : MagnetWheel) (p : ℚ × ℚ) : ℚ × ℚ :=
  w.bodyToWorldF w.angle p

/-- `wheel.getKineticEnergy()`: the wheel's kinetic energy, computed by the
abstract capability from its current mass, radius and angular velocity. -/
def getKineticEnergy (w : MagnetWheel) : ℚ :=
  w.kineticEnergyF w.mass w.radius w.angularVelocity

end MagnetWheel

/-- Modelled from the spec: the `EnergyInfo` record returned by the
EnergyProbe capability ("reports total mechanical energy for a given
state"). The source constructs it as
`EnergyInfo(potential, translation, rotation, workDone, initialEnergy)`
with `NaN` meaning "not specified" for rotation and work; those two fields
are modelled as `Option`. -/
structure EnergyInfo where
  potential : ℚ
  translation : ℚ
  rotationEnergy : Option ℚ
  workDone : Option ℚ
  initialEnergy : ℚ

namespace EnergyInfo

/-- `getTranslational()`: the translational kinetic energy component. -/
def getTranslational (e : EnergyInfo) : ℚ := e.translation

/-- `getPotential()`: the potential energy component. -/
def getPotential (e : EnergyInfo) : ℚ := e.potential

/-- Modelled from the spec: total mechanical energy — the sum of potential
and kinetic energy, where an unspecified (`NaN`) rotational component
contributes nothing. -/
def getTotalEnergy (e : EnergyInfo) : ℚ :=
  e.potential + e.translation + e.rotationEnergy.getD 0

end EnergyInfo

/-- State of a `MagnetWheelSim` instance (sims/misc/MagnetWheelSim.js
constructor, lines 39-118): the wheel, the scalar parameters, the key-press
flags, and the six-slot `VarsList` (`a, w, time, ke, pe, te`), whose slots
3, 4, 5 are marked computed via `setComputed(3,4,5)`. -/
structure MagnetWheelSimState where
  wheel : MagnetWheel
  magnetStrength : ℚ
  damping : ℚ
  initialEnergy : ℚ
  potentialOffset : ℚ
  keyLeft : Bool
  keyRight : Bool
  keyForce : ℚ
  varsList : VarsList

/-- The slot indices marked computed by the `MagnetWheelSim` constructor:
`this.getVarsList().setComputed(3,4,5)` (kinetic, potential, total energy). -/
def computedSlots : List ℕ := [3, 4, 5]

namespace MagnetWheelSim

/-- `MagnetWheelSim.en.MASS`, the language-independent name of the MASS
parameter broadcast by `setMass`. -/
def MASS_PARAM : String := "mass"

/-- `MagnetWheelSim.prototype.moveObjects` (lines 179-184): copies slots 0
and 1 of the state vector into the wheel's angle and angular velocity. -/
def moveObjects (s : MagnetWheelSimState) (vars : List ℚ) : MagnetWheelSimState :=
  { s with wheel :=
      { s.wheel with angle := vars.getD 0 0, angularVelocity := vars.getD 1 0 } }

/-- `MagnetWheelSim.prototype.evaluate` (lines 228-267). Zeroes the change
array, sets `change[0] = vars[1]`, `change[1] = -damping*vars[1]/m`,
`change[2] = 1`, moves the wheel to `vars`, then for each magnet adds the
(sign-corrected) magnetic torque over `m` into `change[1]`; finally adds the
constant key force into `change[1]` if an arrow key is down. Always ends in
`return null`. Returns the JS return value, the change array, and the
mutated sim state. -/
def evaluate (s : MagnetWheelSimState) (vars : List ℚ) :
    Option String × List ℚ × MagnetWheelSimState :=
  let m := s.wheel.mass
  let s1 := moveObjects s vars
  let xf : ℚ := 0
  let yf : ℚ := s1.wheel.radius * (9 / 10)
  let a1 := s1.wheel.magnets.foldl (fun acc mag =>
      let c := s1.wheel.bodyToWorld mag
      let f : ℚ × ℚ := (xf - c.1, yf - c.2)
      let scale := s.magnetStrength / (f.1 * f.1 + f.2 * f.2)
      let f2 : ℚ × ℚ := (f.1 * scale, f.2 * scale)
      let t := f2.1 * c.2 - f2.2 * c.1
      acc + (-t) / m)
    (-s.damping * vars.getD 1 0 / m)
  let a2 := if s.keyLeft then a1 + s.keyForce
            else if s.keyRight then a1 - s.keyForce else a1
  let change := (((List.replicate vars.length (0 : ℚ)).set 0 (vars.getD 1 0)).set 1 a2).set 2 1
  (none, change, s1)

/-- `MagnetWheelSim.prototype.getEnergyInfo_` (lines 145-151):
`ke = wheel.getKineticEnergy(); pe = 0;
return new EnergyInfo(pe, ke, NaN, NaN, this.initialEnergy_)`. -/
def getEnergyInfoAux (s : MagnetWheelSimState) : EnergyInfo :=
  { potential := 0,
    translation := s.wheel.getKineticEnergy,
    rotationEnergy := none,
    workDone := none,
    initialEnergy := s.initialEnergy }

/-- `MagnetWheelSim.prototype.getEnergyInfo` (lines 134-138): reads the
current state vector, moves the wheel to it, and builds the `EnergyInfo`.
Returns the record and the mutated state. -/
def getEnergyInfo (s : MagnetWheelSimState) : EnergyInfo × MagnetWheelSimState :=
  let s1 := moveObjects s s.varsList.values
  (getEnergyInfoAux s1, s1)

/-- `MagnetWheelSim.prototype.setPotentialEnergy` (lines 154-157):
`this.potentialOffset_ = 0;
 this.potentialOffset_ = value - this.getEnergyInfo().getPotential()`. -/
def setPotentialEnergy (s : MagnetWheelSimState) (value : ℚ) : MagnetWheelSimState :=
  let s0 := { s with potentialOffset := 0 }
  let r := getEnergyInfo s0
  { r.2 with potentialOffset := value - r.1.getPotential }

/-- `MagnetWheelSim.prototype.modifyObjects` (lines 160-173): reads the state
vector, moves the wheel, calls `evaluate` (discarding the rate array),
rewrites slots 3, 4, 5 with the current kinetic, potential and total energy,
and writes the vector back with `setValues(vars, continuous=true)`. -/
def modifyObjects (s : MagnetWheelSimState) : MagnetWheelSimState :=
  let vars := s.varsList.values
  let s1 := moveObjects s vars
  let r := evaluate s1 vars
  let s2 := r.2.2
  let ei := getEnergyInfoAux s2
  let vars2 := ((vars.set 3 ei.getTranslational).set 4 ei.getPotential).set 5 ei.getTotalEnergy
  { s2 with varsList := s2.varsList.setValues vars2 true }

/-- `MagnetWheelSim.prototype.setMass` (lines 279-286): sets the wheel's
mass, bumps the change-sequence counters of slots 3, 4, 5 ("discontinuous
change in energy"), and broadcasts the MASS parameter. Returns the new
state and the list of parameter broadcasts emitted. -/
def setMass (s : MagnetWheelSimState) (value : ℚ) :
    MagnetWheelSimState × List String :=
  let s1 := { s with wheel := { s.wheel with mass := value } }
  let s2 := { s1 with varsList := s1.varsList.incrSequence computedSlots }
  (s2, [MASS_PARAM])

end MagnetWheelSim

/-! ## Theorems about solver selection (`DiffEqSolverSubject`) -/

/-- C1 counterexample: calling `setDiffEqSolver` with the unregistered name
`"BOGUS"` on a fully-populated subject throws an `Error` as control flow; it
does not return an `UnknownSolver` result value. -/
theorem C1_cex_setDiffEqSolver_throws :
    (DiffEqSolverSubject.setDiffEqSolver sampleSubject "BOGUS").1 =
      SetSolverOutcome.threw "unknown solver: BOGUS" := by
  decide

/-- C1 (amended): `setDiffEqSolver` returns normally (void) on success, but on
an unknown name — one matching neither the active solver nor any registered
solver — it throws `Error('unknown solver: ' + name)` as control flow
instead of returning a discriminated `UnknownSolver` result. -/
theorem C1_setDiffEqSolver_throw_characterization
    (st : DiffEqSolverSubjectState) (value : String) :
    (DiffEqSolverSubject.setDiffEqSolver st value).1 =
        SetSolverOutcome.threw ("unknown solver: " ++ value) ↔
      DiffEqSolver.nameEquals st.activeSolver value = false ∧
        ∀ s ∈ st.solvers, DiffEqSolver.nameEquals s value = false := by
  unfold DiffEqSolverSubject.setDiffEqSolver
  split
  next h =>
    simp only [reduceCtorEq, false_iff, not_and]
    intro hfalse
    rw [h] at hfalse
    exact absurd hfalse (by simp)
  next h =>
    rw [Bool.not_eq_true] at h
    cases hf : st.solvers.find? (fun s => DiffEqSolver.nameEquals s value) with
    | some solver =>
        have hmem := List.mem_of_find?_eq_some hf
        have hpred := List.find?_some hf
        simp only [reduceCtorEq, false_iff, not_and]
        intro _ hall
        have := hall solver hmem
        rw [hpred] at this
        exact absurd this (by simp)
    | none =>
        have hall := List.find?_eq_none.mp hf
        simp only [SetSolverOutcome.threw.injEq, true_iff]
        refine ⟨h, fun s hs => ?_⟩
        have := hall s hs
        simpa using this

/-- C2: selecting any name registered in the subject's `solvers_` list and
then reading `getDiffEqSolver` returns that same language-independent
name. -/
theorem C2_select_then_current_returns_name (es : Option Unit)
    (active : DiffEqSolver) (name : String)
    (h : name ∈ (mkSolvers es).map DiffEqSolver.getName) :
    DiffEqSolverSubject.getDiffEqSolver
        (DiffEqSolverSubject.setDiffEqSolver ⟨mkSolvers es, active⟩ name).2.1 = name := by
  unfold DiffEqSolverSubject.setDiffEqSolver
  split
  next hacc =>
    exact (DiffEqSolver.nameEquals_true_iff active name).mp hacc
  next hacc =>
    obtain ⟨s, hs, hname⟩ := List.mem_map.mp h
    cases hf : (mkSolvers es).find? (fun t => DiffEqSolver.nameEquals t name) with
    | some solver =>
        have hpred := List.find?_some hf
        simpa [DiffEqSolverSubject.getDiffEqSolver] using
          (DiffEqSolver.nameEquals_true_iff solver name).mp hpred
    | none =>
        have hall := List.find?_eq_none.mp hf s hs
        exact absurd ((DiffEqSolver.nameEquals_true_iff s name).mpr hname) hall

/-- C2 witness: on a subject holding all five solvers with Euler active,
selecting `RUNGE_KUTTA` and reading back yields `RUNGE_KUTTA`. -/
theorem C2_select_then_current_returns_name_witness :
    DiffEqSolverSubject.getDiffEqSolver
        (DiffEqSolverSubject.setDiffEqSolver
          ⟨mkSolvers (some ()), DiffEqSolver.eulersMethod⟩ "RUNGE_KUTTA").2.1 =
      "RUNGE_KUTTA" :=
  C2_select_then_current_returns_name (some ()) DiffEqSolver.eulersMethod
    "RUNGE_KUTTA" (by decide)

/-- C3: when the requested name matches no registered solver, the failed
`setDiffEqSolver` call leaves the whole subject state — in particular the
active solver reported by `getDiffEqSolver` — unchanged. -/
theorem C3_failed_select_leaves_solver_unchanged
    (st : DiffEqSolverSubjectState) (name : String)
    (h : ∀ s ∈ st.solvers, DiffEqSolver.nameEquals s name = false) :
    (DiffEqSolverSubject.setDiffEqSolver st name).2.1 = st ∧
      DiffEqSolverSubject.getDiffEqSolver
          (DiffEqSolverSubject.setDiffEqSolver st name).2.1 =
        DiffEqSolverSubject.getDiffEqSolver st := by
  have hst : (DiffEqSolverSubject.setDiffEqSolver st name).2.1 = st := by
    unfold DiffEqSolverSubject.setDiffEqSolver
    split
    next => rfl
    next =>
      have hf : st.solvers.find? (fun s => DiffEqSolver.nameEquals s name) = none :=
        List.find?_eq_none.mpr (fun s hs => by simp [h s hs])
      rw [hf]
  exact ⟨hst, by rw [hst]⟩

/-- C3 witness: on the sample subject, the name `BOGUS` matches no registered
solver, and the failed call changes nothing. -/
theorem C3_failed_select_leaves_solver_unchanged_witness :
    (DiffEqSolverSubject.setDiffEqSolver sampleSubject "BOGUS").2.1 = sampleSubject ∧
      DiffEqSolverSubject.getDiffEqSolver
          (DiffEqSolverSubject.setDiffEqSolver sampleSubject "BOGUS").2.1 =
        DiffEqSolverSubject.getDiffEqSolver sampleSubject :=
  C3_failed_select_leaves_solver_unchanged sampleSubject "BOGUS" (by decide)

/-- C4 counterexample: selecting `RUNGE_KUTTA` while the Runge-Kutta solver
is already active is a successful call (it returns normally, and the name is
registered), yet it emits zero broadcasts of the `DIFF_EQ_SOLVER`
parameter — refuting "every successful call emits exactly one
notification". -/
theorem C4_cex_successful_select_no_broadcast :
    (DiffEqSolverSubject.setDiffEqSolver sampleSubject "RUNGE_KUTTA").1 =
        SetSolverOutcome.ok ∧
      (DiffEqSolverSubject.setDiffEqSolver sampleSubject "RUNGE_KUTTA").2.2 = [] := by
  decide

/-- C4 (amended): every call to `setDiffEqSolver` emits at most one broadcast
of the `DIFF_EQ_SOLVER` parameter, and it emits exactly one precisely when
the call returns normally and actually swaps the active solver; a no-op
successful call (name already active) and a throwing call emit none. -/
theorem C4_select_broadcast_characterization
    (st : DiffEqSolverSubjectState) (value : String) :
    ((DiffEqSolverSubject.setDiffEqSolver st value).2.2 = [] ∨
      (DiffEqSolverSubject.setDiffEqSolver st value).2.2 = [DIFF_EQ_SOLVER_PARAM]) ∧
    ((DiffEqSolverSubject.setDiffEqSolver st value).2.2 = [DIFF_EQ_SOLVER_PARAM] ↔
      (DiffEqSolverSubject.setDiffEqSolver st value).1 = SetSolverOutcome.ok ∧
        (DiffEqSolverSubject.setDiffEqSolver st value).2.1.activeSolver ≠
          st.activeSolver) := by
  unfold DiffEqSolverSubject.setDiffEqSolver
  split
  next h => simp
  next h =>
    rw [Bool.not_eq_true] at h
    cases hf : st.solvers.find? (fun s => DiffEqSolver.nameEquals s value) with
    | some solver =>
        have hpred := List.find?_some hf
        have hne : solver ≠ st.activeSolver := by
          intro contra
          rw [contra, h] at hpred
          exact absurd hpred (by simp)
        simp [hne]
    | none => simp

/-- C7: the registry built by the `DiffEqSolverSubject` constructor holds
exactly the three fixed-step solvers when no `EnergySystem` is supplied, and
those three followed by the two `AdaptiveStepSolver` variants (wrapping
Modified Euler and Runge-Kutta, in that order) when one is; an adaptive
variant is registered iff an `EnergySystem` was provided. -/
theorem C7_registry_contents :
    mkSolvers none =
        [DiffEqSolver.eulersMethod, DiffEqSolver.modifiedEuler,
         DiffEqSolver.rungeKutta] ∧
      mkSolvers (some ()) =
        [DiffEqSolver.eulersMethod, DiffEqSolver.modifiedEuler,
         DiffEqSolver.rungeKutta,
         DiffEqSolver.adaptiveStepSolver DiffEqSolver.modifiedEuler,
         DiffEqSolver.adaptiveStepSolver DiffEqSolver.rungeKutta] ∧
      ∀ (es : Option Unit) (s : DiffEqSolver),
        DiffEqSolver.adaptiveStepSolver s ∈ mkSolvers es ↔
          es.isSome = true ∧
            (s = DiffEqSolver.modifiedEuler ∨ s = DiffEqSolver.rungeKutta) := by
  refine ⟨rfl, rfl, fun es s => ?_⟩
  cases es <;> simp [mkSolvers]

/-! ## Theorems about `MagnetWheelSim` -/

/-- A concrete state vector for counterexamples and witnesses:
angle 0, angular velocity 3 (the constructor's initial value), time 0,
energy slots 0. -/
def sampleVars : List ℚ := [0, 3, 0, 0, 0, 0]

/-- A concrete `MagnetWheelSim` state with the constructor's parameter values
(`magnetStrength_ = 1`, `damping_ = 0.7`, `keyForce_ = 5`, wheel of mass 1
and radius 1) whose single magnet sits at body point `(0, 9/10)`; the
body-to-world transform is instantiated as the identity (the wheel at angle
0 centred on the origin), and the kinetic energy capability as one half of
the wheel's moment of inertia times the squared angular velocity. -/
def sampleSim : MagnetWheelSimState :=
  { wheel :=
      { mass := 1, radius := 1, angle := 0, angularVelocity := 3,
        magnets := [(0, 9 / 10)],
        bodyToWorldF := fun _ p => p,
        kineticEnergyF := fun m r v => m * r * r / 2 * v * v / 2 },
    magnetStrength := 1, damping := 7 / 10,
    initialEnergy := 0, potentialOffset := 0,
    keyLeft := false, keyRight := false, keyForce := 5,
    varsList := { values := sampleVars, seq := fun _ => 0 } }

/-- C5 counterexample: in `sampleSim` with `sampleVars` the magnet's world
position coincides exactly with the fixed magnet point
`(0, radius * 0.9)` — the inverse-square force divides by zero, so the state
is physically invalid — yet `evaluate` returns `null` (success), not a
failure signal. -/
theorem C5_cex_evaluate_success_on_singular_state :
    (∃ mag ∈ sampleSim.wheel.magnets,
        (MagnetWheelSim.moveObjects sampleSim sampleVars).wheel.bodyToWorld mag =
          (0, (MagnetWheelSim.moveObjects sampleSim sampleVars).wheel.radius *
            (9 / 10))) ∧
      (MagnetWheelSim.evaluate sampleSim sampleVars).1 = none := by
  refine ⟨⟨(0, 9 / 10), List.mem_singleton.mpr rfl, ?_⟩, rfl⟩
  show ((0 : ℚ), (9 : ℚ) / 10) = (0, (1 : ℚ) * (9 / 10))
  norm_num

/-- C5 (amended): `MagnetWheelSim.evaluate` unconditionally executes
`return null` — it reports success for every state, including physically
invalid ones where a magnet coincides with the fixed point; non-finite
values would be written into the derivative array instead of a failure
signal being returned. -/
theorem C5_evaluate_always_returns_null
    (s : MagnetWheelSimState) (vars : List ℚ) :
    (MagnetWheelSim.evaluate s vars).1 = none := rfl

/-- C6: for every input state and vars array, the derivative array produced
by `evaluate` is zero at every index from 3 up — in particular at the
computed energy slots 3, 4, 5 — since `evaluate` zeroes the array and then
writes only indices 0, 1, 2. -/
theorem C6_evaluate_computed_slots_zero
    (s : MagnetWheelSimState) (vars : List ℚ) (i : ℕ) (h : 3 ≤ i) :
    ((MagnetWheelSim.evaluate s vars).2.1).getD i 0 = 0 := by
  have h0 : (0 : ℕ) ≠ i := by omega
  have h1 : (1 : ℕ) ≠ i := by omega
  have h2 : (2 : ℕ) ≠ i := by omega
  unfold MagnetWheelSim.evaluate
  simp only [List.getD_eq_getElem?_getD, List.getElem?_set_ne h2,
    List.getElem?_set_ne h1, List.getElem?_set_ne h0, List.getElem?_replicate]
  split <;> rfl

/-- C6 witness: at the concrete sample state, slot 3 of the derivative array
is zero. -/
theorem C6_evaluate_computed_slots_zero_witness :
    ((MagnetWheelSim.evaluate sampleSim sampleVars).2.1).getD 3 0 = 0 :=
  C6_evaluate_computed_slots_zero sampleSim sampleVars 3 (by decide)

/-- C8: every call to `setMass` broadcasts the `MASS` parameter exactly once
and increments the change-sequence counters of exactly the computed energy
slots 3, 4, 5, leaving every other slot's counter unchanged. -/
theorem C8_setMass_bumps_energy_counters_and_broadcasts_once
    (s : MagnetWheelSimState) (value : ℚ) :
    (MagnetWheelSim.setMass s value).2 = [MagnetWheelSim.MASS_PARAM] ∧
      ∀ i : ℕ,
        (MagnetWheelSim.setMass s value).1.varsList.seq i =
          if i = 3 ∨ i = 4 ∨ i = 5 then s.varsList.seq i + 1
          else s.varsList.seq i := by
  refine ⟨rfl, fun i => ?_⟩
  simp [MagnetWheelSim.setMass, VarsList.incrSequence, computedSlots]

/-- C9: `modifyObjects` writes the state vector back with `continuous=true`,
so every slot's change-sequence counter is unchanged, while the slot values
are rewritten (the potential-energy slot 4 is written to 0). -/
theorem C9_modifyObjects_preserves_seq_counters (s : MagnetWheelSimState) :
    (MagnetWheelSim.modifyObjects s).varsList.seq = s.varsList.seq ∧
      ((MagnetWheelSim.modifyObjects s).varsList.values).getD 4 0 = 0 := by
  constructor
  · rfl
  · unfold MagnetWheelSim.modifyObjects
    simp only [VarsList.setValues]
    rcases Nat.lt_or_ge 4 s.varsList.values.length with hlt | hge
    · rw [List.getD_eq_getElem?_getD,
        List.getElem?_set_ne (show (5 : ℕ) ≠ 4 by omega),
        List.getElem?_set_self (by simpa using hlt)]
      rfl
    · rw [List.getD_eq_getElem?_getD,
        List.getElem?_set_ne (show (5 : ℕ) ≠ 4 by omega),
        List.getElem?_eq_none (by simpa using hge)]
      rfl

/-- C10: the potential energy reported by `MagnetWheelSim` is always 0 and
the reported total energy equals the kinetic energy; calling
`setPotentialEnergy` (which only writes `potentialOffset_`, a field never
read when building `EnergyInfo`) has no effect on any subsequently reported
`EnergyInfo`. -/
theorem C10_energy_report_ignores_potential_offset
    (s : MagnetWheelSimState) (value : ℚ) :
    (MagnetWheelSim.getEnergyInfo (MagnetWheelSim.setPotentialEnergy s value)).1 =
        (MagnetWheelSim.getEnergyInfo s).1 ∧
      (MagnetWheelSim.getEnergyInfo s).1.getPotential = 0 ∧
      (MagnetWheelSim.getEnergyInfo s).1.getTotalEnergy =
        (MagnetWheelSim.getEnergyInfo s).1.getTranslational := by
  refine ⟨rfl, rfl, ?_⟩
  simp [MagnetWheelSim.getEnergyInfo, MagnetWheelSim.getEnergyInfoAux,
    EnergyInfo.getTotalEnergy, EnergyInfo.getTranslational]
